import Mathlib

/-!
Verification development for the shzorik_bot reminder bot.

The Python sources are shallowly embedded as Lean functions:

* `src/database.py`: `parse_reminder`, `handle_channel_post` (the channel
  handler of that module, here `db_handle_channel_post`);
* `src/main.py`: `parse_hashtags`, `handle_channel_post`,
  `input_time_handler`, `callback_confirm_save`, `send_reminders_job`;
* `src/cron_function.py`: `send_reminders` (here `cron_send_reminders`).

Python aware datetimes are embedded as absolute instants (minutes on the
proleptic Gregorian calendar, see `AwareDT`); the configured display zone
is `Europe/Moscow`, a fixed UTC+3 offset (no DST since 2014), so
`datetime.replace(tzinfo=...)`, `astimezone` and `timedelta` arithmetic
become explicit offset arithmetic.  Strings are processed as `List Char`;
the two regular expressions of the sources (the hashtag token class
`#[а-яА-ЯёЁa-zA-Z0-9_]+` / `#[\wа-яА-ЯёЁ]+` and the datetime token
`@(\d{2}:\d{2}) (\d{2}-\d{2}-\d{4})`) are embedded as left-to-right
scanners with the same match semantics on the ASCII/Cyrillic alphabet the
bot works over.
-/

/-- Character class of the hashtag regexes: `[а-яА-ЯёЁa-zA-Z0-9_]` as in
`src/database.py`; over the ASCII+Cyrillic alphabet this coincides with
`[\wа-яА-ЯёЁ]` of `src/main.py` (Python `\w` = alphanumerics plus underscore). -/
def isWordChar (c : Char) : Bool :=
  let n := c.toNat
  (48 ≤ n && n ≤ 57) || (65 ≤ n && n ≤ 90) || (97 ≤ n && n ≤ 122) || n == 95 ||
  (0x430 ≤ n && n ≤ 0x44F) || (0x410 ≤ n && n ≤ 0x42F) || n == 0x451 || n == 0x401

/-- Whitespace for Python `str.strip` / `str.split` (space, tab, CR, LF —
the characters relevant to the bot's inputs). -/
def isWS (c : Char) : Bool :=
  c == ' ' || c == '\t' || c == '\r' || c == '\n'

/-- Left-to-right scan of `re.findall(r"#[...]+", text)`: at a `#` the
scanner greedily takes the maximal nonempty run of word characters as one
match and resumes after it; a `#` not followed by a word character is not
a match and scanning resumes at the next character.  The accumulator holds
the word characters read so far (reversed) while inside a candidate tag. -/
def scanT : List Char → Bool → List Char → List (List Char)
  | [], inTag, acc => if inTag && !acc.isEmpty then ['#' :: acc.reverse] else []
  | c :: rest, true, acc =>
    if isWordChar c then scanT rest true (c :: acc)
    else if acc.isEmpty then
      (if c == '#' then scanT rest true [] else scanT rest false [])
    else
      ('#' :: acc.reverse) :: (if c == '#' then scanT rest true [] else scanT rest false [])
  | c :: rest, false, _ =>
    if c == '#' then scanT rest true [] else scanT rest false []

/-- The hashtag tokens of a character string, in order of appearance. -/
def findTagsIn (l : List Char) : List String :=
  (scanT l false []).map List.asString

/-- `re.findall(r"#[\wа-яА-ЯёЁ]+", text)` on a string. -/
def findTags (s : String) : List String :=
  findTagsIn s.toList

/-- `re.sub(r"#[...]+", "", text)`: the same scan as `scanT`, emitting the
non-matching characters and dropping every matched tag token. -/
def rmT : List Char → Bool → List Char → List Char
  | [], false, _ => []
  | [], true, acc => if acc.isEmpty then ['#'] else []
  | c :: rest, false, _ =>
    if c == '#' then rmT rest true [] else c :: rmT rest false []
  | c :: rest, true, acc =>
    if isWordChar c then rmT rest true (c :: acc)
    else if acc.isEmpty then
      '#' :: (if c == '#' then rmT rest true [] else c :: rmT rest false [])
    else
      (if c == '#' then rmT rest true [] else c :: rmT rest false [])

/-- Match of `@(\d{2}:\d{2}) (\d{2}-\d{2}-\d{4})` anchored at the head of
the list; returns (group 0, group 1 = time, group 2 = date). -/
def matchDTAt : List Char → Option (List Char × List Char × List Char)
  | '@' :: h1 :: h2 :: ':' :: n1 :: n2 :: ' ' :: d1 :: d2 :: '-' :: m1 :: m2 :: '-' ::
      y1 :: y2 :: y3 :: y4 :: _ =>
    if h1.isDigit && h2.isDigit && n1.isDigit && n2.isDigit && d1.isDigit && d2.isDigit &&
        m1.isDigit && m2.isDigit && y1.isDigit && y2.isDigit && y3.isDigit && y4.isDigit then
      some (['@', h1, h2, ':', n1, n2, ' ', d1, d2, '-', m1, m2, '-', y1, y2, y3, y4],
            [h1, h2, ':', n1, n2],
            [d1, d2, '-', m1, m2, '-', y1, y2, y3, y4])
    else none
  | _ => none

/-- `re.search(r"@(\d{2}:\d{2}) (\d{2}-\d{2}-\d{4})", text)`: leftmost match. -/
def searchDT : List Char → Option (List Char × List Char × List Char)
  | [] => none
  | c :: rest =>
    match matchDTAt (c :: rest) with
    | some r => some r
    | none => searchDT rest

/-- Fuel-driven core of Python `str.replace(old, "")` (all non-overlapping
occurrences, left to right); the fuel is instantiated with the length of
the subject string, which suffices since every step consumes a character. -/
def replaceCore : Nat → List Char → List Char → List Char
  | 0, _, s => s
  | _ + 1, _, [] => []
  | fuel + 1, old, c :: rest =>
    if old.isPrefixOf (c :: rest) then replaceCore fuel old (List.drop (old.length - 1) rest)
    else c :: replaceCore fuel old rest

/-- Python `text.replace(old, "")`. -/
def replaceRemove (old s : List Char) : List Char :=
  replaceCore s.length old s

/-- Python `str.strip()`. -/
def pyStrip (l : List Char) : List Char :=
  (((l.dropWhile isWS).reverse).dropWhile isWS).reverse

/-- Word accumulator for Python `str.split()` (split on whitespace runs,
no empty words). -/
def splitWSAux : List Char → List Char → List (List Char)
  | [], acc => if acc.isEmpty then [] else [acc.reverse]
  | c :: rest, acc =>
    if isWS c then
      (if acc.isEmpty then splitWSAux rest [] else acc.reverse :: splitWSAux rest [])
    else splitWSAux rest (c :: acc)

/-- Python `s.split()`. -/
def pySplit (s : String) : List String :=
  (splitWSAux s.toList []).map List.asString

/-- `" ".join` over a list of tokens, at the character level. -/
def joinSp : List (List Char) → List Char
  | [] => []
  | [t] => t
  | t :: ts => t ++ ' ' :: joinSp ts

/-- Python `sub in s` substring test on strings (used by `in` on a `str`). -/
def isSubstring (p : List Char) : List Char → Bool
  | [] => p.isEmpty
  | c :: rest => p.isPrefixOf (c :: rest) || isSubstring p rest

/-! ## Calendar and aware-datetime model -/

/-- Gregorian leap year, as validated by `datetime`. -/
def isLeap (y : Nat) : Bool :=
  y % 4 == 0 && (y % 100 != 0 || y % 400 == 0)

/-- Length of a month as enforced by the `datetime` constructor. -/
def daysInMonth (y m : Nat) : Nat :=
  if m == 2 then (if isLeap y then 29 else 28)
  else if m == 4 || m == 6 || m == 9 || m == 11 then 30
  else 31

/-- Days in the months strictly before month `m`, common year. -/
def daysBeforeMonthBase : Nat → Nat
  | 1 => 0
  | 2 => 31
  | 3 => 59
  | 4 => 90
  | 5 => 120
  | 6 => 151
  | 7 => 181
  | 8 => 212
  | 9 => 243
  | 10 => 273
  | 11 => 304
  | _ => 334

/-- Days in the months of year `y` strictly before month `m`. -/
def daysBeforeMonth (y m : Nat) : Nat :=
  daysBeforeMonthBase m + (if 3 ≤ m ∧ isLeap y then 1 else 0)

/-- Day number of a proleptic Gregorian civil date, day 0 = 0001-01-01. -/
def daysFromCivil (y m d : Nat) : Nat :=
  365 * (y - 1) + (y - 1) / 4 - (y - 1) / 100 + (y - 1) / 400 + daysBeforeMonth y m + (d - 1)

/-- A naive `datetime` (wall-clock fields, no timezone). -/
structure NaiveDT where
  year : Nat
  month : Nat
  day : Nat
  hour : Nat
  minute : Nat
deriving DecidableEq, Repr

/-- Wall-clock minutes of a naive datetime on the day-number scale. -/
def wallMinutes (t : NaiveDT) : Int :=
  ((daysFromCivil t.year t.month t.day) * 1440 + t.hour * 60 + t.minute : Nat)

/-- An aware `datetime`, embedded as the absolute instant it denotes
(minutes, UTC scale) together with its fixed UTC offset in minutes.
Comparison and `timedelta` arithmetic on aware datetimes act on `absMin`. -/
structure AwareDT where
  absMin : Int
  offsetMin : Int
deriving DecidableEq, Repr

/-- UTC offset of `Europe/Moscow` (fixed UTC+3), the configured display zone. -/
def MSK_OFFSET : Int := 180

/-- `naive.replace(tzinfo=zone)` for a fixed-offset zone. -/
def replaceTZ (t : NaiveDT) (offset : Int) : AwareDT :=
  ⟨wallMinutes t - offset, offset⟩

/-- `dt.astimezone(ZoneInfo("UTC"))`: same instant, offset 0. -/
def astimezoneUTC (a : AwareDT) : AwareDT :=
  ⟨a.absMin, 0⟩

/-- `dt - timedelta(days=n)` on an aware datetime with a fixed offset. -/
def subDays (a : AwareDT) (n : Nat) : AwareDT :=
  ⟨a.absMin - 1440 * n, a.offsetMin⟩

/-- `datetime(y, m, d, h, mi, tzinfo=APP_TZ)` with the Moscow display zone. -/
def mkAware (yr mo dy h mi : Nat) : AwareDT :=
  replaceTZ ⟨yr, mo, dy, h, mi⟩ MSK_OFFSET

/-- `datetime.strptime(f"{date_str} {time_str}", "%d-%m-%Y %H:%M")`:
succeeds exactly when the captured digits form a valid calendar value
(month 1–12, day within the month, hour ≤ 23, minute ≤ 59, year ≥ 1);
any other value raises `ValueError` in Python, i.e. yields `none` here.
The argument shapes are those produced by `searchDT`. -/
def strptimeDMY_HM (dateS timeS : List Char) : Option NaiveDT :=
  match dateS, timeS with
  | [d1, d2, '-', m1, m2, '-', y1, y2, y3, y4], [h1, h2, ':', n1, n2] =>
    let y := 1000 * (y1.toNat - 48) + 100 * (y2.toNat - 48) + 10 * (y3.toNat - 48) + (y4.toNat - 48)
    let mo := 10 * (m1.toNat - 48) + (m2.toNat - 48)
    let dy := 10 * (d1.toNat - 48) + (d2.toNat - 48)
    let h := 10 * (h1.toNat - 48) + (h2.toNat - 48)
    let mi := 10 * (n1.toNat - 48) + (n2.toNat - 48)
    if 1 ≤ y ∧ 1 ≤ mo ∧ mo ≤ 12 ∧ 1 ≤ dy ∧ dy ≤ daysInMonth y mo ∧ h ≤ 23 ∧ mi ≤ 59 then
      some ⟨y, mo, dy, h, mi⟩
    else none
  | _, _ => none

/-! ## `src/database.py`: the token parser and the channel handler -/

/-- The second component returned by `parse_reminder`: the source returns
the hashtag *list* on the normal paths but the space-*joined string* on the
`ValueError` path ("return text, " ".join(hashtags), None"). -/
inductive TagsRet
  | tagList (l : List String)
  | tagStr (s : String)
deriving DecidableEq, Repr

/-- Return value of `parse_reminder`. -/
structure ParsedReminder where
  body : String
  hashtags : TagsRet
  reminder_date : Option AwareDT
deriving DecidableEq, Repr

/-- `parse_reminder` of `src/database.py` (lines 42–54): collects hashtag
tokens, searches for the `@HH:MM DD-MM-YYYY` token, interprets it with
`strptime` in the Moscow zone; on `ValueError` it returns the joined tags
and no date; in every case the returned body is the input text itself. -/
def parse_reminder (text : String) : ParsedReminder :=
  let hashtags := findTags text
  match searchDT text.toList with
  | none => ⟨text, .tagList hashtags, none⟩
  | some (_, timeS, dateS) =>
    match strptimeDMY_HM dateS timeS with
    | none => ⟨text, .tagStr (List.asString (joinSp (hashtags.map String.toList))), none⟩
    | some t => ⟨text, .tagList hashtags, some (replaceTZ t MSK_OFFSET)⟩

/-- A record handed to `add_note` (owner, text, joined hashtags, due instant). -/
structure SavedNote where
  user_id : Int
  text : String
  hashtags : String
  reminder_date : AwareDT
deriving DecidableEq, Repr

/-- The membership test `"#напоминание" not in hashtags` of
`src/database.py` line 76: list membership when `parse_reminder` returned
the list, Python substring test when it returned the joined string. -/
def containsTagRet : TagsRet → Bool
  | .tagList l => decide ("#напоминание" ∈ l)
  | .tagStr s => isSubstring "#напоминание".toList s.toList

/-- `" ".join(hashtags)` as applied at `add_note` call sites of
`src/database.py`: joins a list of tags, or the characters of a string
(Python iterates a `str` by characters; that branch is unreachable since
it coincides with an absent date). -/
def joinTagsRet : TagsRet → String
  | .tagList l => List.asString (joinSp (l.map String.toList))
  | .tagStr s => List.asString (joinSp (s.toList.map (fun c => [c])))

/-- `handle_channel_post` of `src/database.py` (lines 70–81): parses the
post, ignores it unless `#напоминание` is among the tags and a due instant
was parsed, otherwise stores the (uncleaned) text, the joined tags and the
parsed instant. -/
def db_handle_channel_post (channel_id : Int) (text : String) : Option SavedNote :=
  let r := parse_reminder text
  if containsTagRet r.hashtags then
    match r.reminder_date with
    | none => none
    | some rd => some ⟨channel_id, r.body, joinTagsRet r.hashtags, rd⟩
  else none

/-! ## `src/main.py`: utilities, channel handler, dialog, scheduler -/

/-- `parse_hashtags` of `src/main.py` (lines 73–75): the joined hashtag
tokens, in order of appearance, case and duplicates untouched. -/
def parse_hashtags (text : String) : String :=
  List.asString (joinSp ((findTags text).map String.toList))

/-- Result of `handle_channel_post` of `src/main.py`. -/
inductive ChannelOutcome
  | notifyLink
  | ignored
  | parseFailed
  | tooSoon
  | saved (note : SavedNote)
deriving DecidableEq, Repr

/-- Zero-padded two-digit rendering (`%H`, `%M`, `%d`, `%m`). -/
def pad2 (n : Nat) : String :=
  if n < 10 then "0" ++ toString n else toString n

/-- Zero-padded four-digit rendering (`%Y`). -/
def pad4 (n : Nat) : String :=
  if n < 10 then "000" ++ toString n
  else if n < 100 then "00" ++ toString n
  else if n < 1000 then "0" ++ toString n
  else toString n

/-- `strftime('%H:%M %d-%m-%Y')` on the wall-clock fields. -/
def fmtHM_DMY (t : NaiveDT) : String :=
  pad2 t.hour ++ ":" ++ pad2 t.minute ++ " " ++ pad2 t.day ++ "-" ++ pad2 t.month ++ "-" ++ pad4 t.year

/-- The body cleanup of `src/main.py` line 217:
`re.sub(r"#[\wа-яА-ЯёЁ]+", "", text).replace(dt_match.group(0), "").strip()`. -/
def cleanChannelText (text full : List Char) : List Char :=
  pyStrip (replaceRemove full (rmT text false []))

/-- `handle_channel_post` of `src/main.py` (lines 163–224), restricted to
its decision and data flow: `/notify` posts get a deep-link reply; other
posts are ignored unless they carry `#напоминание` and a datetime token;
a `ValueError` from `strptime` is caught by the generic handler
(`parseFailed`); events closer than 24 hours are refused (`tooSoon`);
otherwise the note is stored with the cleaned body, the joined tags and
the event instant minus one day converted to UTC. -/
def handle_channel_post (nowAbs : Int) (chat_id : Int) (rawText : String) : ChannelOutcome :=
  let text : List Char := pyStrip rawText.toList
  if "/notify".toList.isPrefixOf text then .notifyLink
  else
    let hashtags := findTagsIn text
    match searchDT text with
    | none => .ignored
    | some (full, timeS, dateS) =>
      if "#напоминание" ∈ hashtags then
        match strptimeDMY_HM dateS timeS with
        | none => .parseFailed
        | some t =>
          let event_date := replaceTZ t MSK_OFFSET
          if event_date.absMin < nowAbs + 1440 then .tooSoon
          else
            let remind_utc := astimezoneUTC (subDays event_date 1)
            let cleaned := cleanChannelText text full
            let text_with_event :=
              List.asString cleaned ++ " (событие: " ++ fmtHM_DMY t ++ ")"
            .saved ⟨chat_id, text_with_event,
                    List.asString (joinSp (hashtags.map String.toList)), remind_utc⟩
      else .ignored

/-! ### Dialog: conversation states and handlers -/

/-- `STATE_CHOOSE_DATE` of `src/main.py`. -/
def STATE_CHOOSE_DATE : Int := 0

/-- `STATE_INPUT_TIME` of `src/main.py`. -/
def STATE_INPUT_TIME : Int := 1

/-- `STATE_INPUT_TEXT` of `src/main.py`. -/
def STATE_INPUT_TEXT : Int := 2

/-- `STATE_CONFIRM` of `src/main.py`. -/
def STATE_CONFIRM : Int := 3

/-- `ConversationHandler.END`. -/
def CONV_END : Int := -1

/-- A `datetime.date` as stored in `context.user_data["event_date"]`. -/
structure PyDate where
  year : Nat
  month : Nat
  day : Nat
deriving DecidableEq, Repr

/-- Match of `^([0-2]?\d):([0-5]\d)$` returning (hour, minute): either a
single hour digit or two hour digits with the first in 0–2, then a minute
whose first digit is 0–5. -/
def matchTimeHM : List Char → Option (Nat × Nat)
  | [a, ':', b, c] =>
    if a.isDigit && (48 ≤ b.toNat && b.toNat ≤ 53) && c.isDigit then
      some (a.toNat - 48, 10 * (b.toNat - 48) + (c.toNat - 48))
    else none
  | [a1, a2, ':', b, c] =>
    if (48 ≤ a1.toNat && a1.toNat ≤ 50) && a2.isDigit &&
        (48 ≤ b.toNat && b.toNat ≤ 53) && c.isDigit then
      some (10 * (a1.toNat - 48) + (a2.toNat - 48), 10 * (b.toNat - 48) + (c.toNat - 48))
    else none
  | _ => none

/-- Branch taken by `input_time_handler` of `src/main.py` (lines 309–339). -/
inductive TimeStep
  | badFormat
  | badHour
  | missingDate
  | tooSoon
  | accepted (h mi : Nat)
deriving DecidableEq, Repr

/-- Decision logic of `input_time_handler`: reject a malformed `HH:MM`, an
hour above 23, a missing session date, or an event instant less than 24
hours away; otherwise accept the hour and minute. -/
def input_time_step (nowAbs : Int) (event_date : Option PyDate) (msgText : String) : TimeStep :=
  let text := pyStrip msgText.toList
  match matchTimeHM text with
  | none => .badFormat
  | some (h, mi) =>
    if 23 < h then .badHour
    else
      match event_date with
      | none => .missingDate
      | some d =>
        let dt := mkAware d.year d.month d.day h mi
        if dt.absMin < nowAbs + 1440 then .tooSoon
        else .accepted h mi

/-- Conversation state returned for each branch of `input_time_handler`:
every rejection replies with a prompt and stays in `STATE_INPUT_TIME`
(except a lost session date, which ends the conversation); acceptance
moves on to `STATE_INPUT_TEXT`. -/
def timeStepNext : TimeStep → Int
  | .badFormat => STATE_INPUT_TIME
  | .badHour => STATE_INPUT_TIME
  | .missingDate => CONV_END
  | .tooSoon => STATE_INPUT_TIME
  | .accepted _ _ => STATE_INPUT_TEXT

/-- `input_time_handler` of `src/main.py`, as the conversation state it
returns. -/
def input_time_handler (nowAbs : Int) (event_date : Option PyDate) (msgText : String) : Int :=
  timeStepNext (input_time_step nowAbs event_date msgText)

/-- Result of `callback_confirm_save` of `src/main.py`. -/
inductive ConfirmOutcome
  | cancelled
  | incomplete
  | saved (note : SavedNote)
  | noop
deriving DecidableEq, Repr

/-- The hashtag completion of `callback_confirm_save` (lines 398–403):
keep the draft's tags; if `#напоминание` is not among them (exact token
test on `split()`), append it — or use it alone when there are no tags. -/
def confirm_hashtags (text : String) : String :=
  let hashtags := parse_hashtags text
  if "#напоминание" ∈ pySplit hashtags then hashtags
  else if hashtags ≠ "" then List.asString (pyStrip (hashtags ++ " #напоминание").toList)
  else "#напоминание"

/-- `callback_confirm_save` of `src/main.py` (lines 373–442): on `CANCEL`
the dialog is cancelled; on `CONFIRM_SAVE` with complete session data
(date, hour, minute, nonempty text, truthy channel id) the note is stored
for the channel with the completed hashtags, the text annotated with the
event time, and a due instant of the event minus one day in UTC. -/
def callback_confirm_save (data : String) (event_date : Option PyDate)
    (event_hour event_minute : Option Nat) (event_text : String)
    (target_channel_id : Option Int) : ConfirmOutcome :=
  if data = "CANCEL" then .cancelled
  else if data = "CONFIRM_SAVE" then
    let text := List.asString (pyStrip event_text.toList)
    match event_date, event_hour, event_minute, target_channel_id with
    | some d, some h, some mi, some cid =>
      if text = "" ∨ cid = 0 then .incomplete
      else
        let event_dt := mkAware d.year d.month d.day h mi
        let remind_utc := astimezoneUTC (subDays event_dt 1)
        let hashtags := confirm_hashtags text
        let text_with_event := text ++ " (событие: " ++ fmtHM_DMY ⟨d.year, d.month, d.day, h, mi⟩ ++ ")"
        .saved ⟨cid, text_with_event, hashtags, remind_utc⟩
    | _, _, _, _ => .incomplete
  else .noop

/-! ### Delivery scheduler loops -/

/-- A row returned by the due-window query, as consumed by the delivery
loops. -/
structure DueNote where
  id : Nat
  user_id : Int
  text : String
  reminder_date : AwareDT
deriving DecidableEq, Repr

/-- Observable effects of one scheduler tick: the ids for which an
outbound send was attempted, the ids passed to `mark_reminder_sent`, and
the count of successful sends. -/
structure TickResult where
  sends : List Nat
  marks : List Nat
  sent_count : Nat
deriving DecidableEq, Repr

/-- The per-record loop of `send_reminders_job` of `src/main.py` (lines
469–494): for each note, attempt the send (`ok` tells whether the
dispatch raised); on success mark the note sent and count it; any
exception is caught for that note alone and the loop continues. -/
def send_reminders_job (ok : Nat → Bool) : List DueNote → TickResult
  | [] => ⟨[], [], 0⟩
  | n :: rest =>
    let r := send_reminders_job ok rest
    if ok n.id then ⟨n.id :: r.sends, n.id :: r.marks, r.sent_count + 1⟩
    else ⟨n.id :: r.sends, r.marks, r.sent_count⟩

/-- The per-record loop of `send_reminders` of `src/cron_function.py`
(lines 49–72): identical structure — send, then mark on success, with a
per-note exception handler. -/
def cron_send_reminders (ok : Nat → Bool) : List DueNote → TickResult
  | [] => ⟨[], [], 0⟩
  | n :: rest =>
    let r := cron_send_reminders ok rest
    if ok n.id then ⟨n.id :: r.sends, n.id :: r.marks, r.sent_count + 1⟩
    else ⟨n.id :: r.sends, r.marks, r.sent_count⟩

/-! ### The reminder store (spec-modelled)

The database module that defines `add_note`, `mark_reminder_sent` and
`get_upcoming_reminders_window` is not among the source files (the files
under `src/` only import it), so the store is modelled from the spec. -/

/-- A persisted reminder row (spec §3 `ReminderRecord`): unique id, owner,
text, joined tags, due instant (UTC minutes) and the delivered flag. -/
structure DbNote where
  id : Nat
  user_id : Int
  text : String
  hashtags : String
  reminder_date : Int
  reminder_sent : Bool
deriving DecidableEq, Repr

/-- Modelled from the spec: `mark_reminder_sent` (`Store.markDelivered`,
§4.2) is missing from `src/`; per the spec it is an atomic conditional
update that sets `delivered=true` exactly once and returns whether a row
existed and was updated (`false` for an unknown or already-delivered id). -/
def mark_reminder_sent : List DbNote → Nat → List DbNote × Bool
  | [], _ => ([], false)
  | n :: rest, i =>
    if n.id = i then
      if n.reminder_sent then (n :: rest, false)
      else ({ n with reminder_sent := true } :: rest, true)
    else
      let r := mark_reminder_sent rest i
      (n :: r.1, r.2)

/-- Modelled from the spec: `get_upcoming_reminders_window`
(`Store.findDueWindow`, §4.2) is missing from `src/`; per the spec it
returns the records whose due instant lies in the inclusive window,
excluding delivered records when `only_unsent` (the spec's ordering by
due instant is irrelevant to the membership properties proved here). -/
def get_upcoming_reminders_window (db : List DbNote) (s e : Int) (only_unsent : Bool) : List DbNote :=
  db.filter (fun n => decide (s ≤ n.reminder_date) && decide (n.reminder_date ≤ e) &&
    (!only_unsent || !n.reminder_sent))

/-! ## Store lemmas -/

/-- Marking an id whose first matching row is undelivered succeeds, and
afterwards the first matching row is that row with the flag set. -/
lemma mark_found (db : List DbNote) (i : Nat) (n : DbNote)
    (hf : db.find? (fun r => decide (r.id = i)) = some n)
    (hs : n.reminder_sent = false) :
    (mark_reminder_sent db i).2 = true ∧
    (mark_reminder_sent db i).1.find? (fun r => decide (r.id = i)) =
      some { n with reminder_sent := true } := by
  induction db with
  | nil => simp at hf
  | cons m rest ih =>
    by_cases hm : m.id = i
    · rw [List.find?_cons_of_pos _ (by simp [hm])] at hf
      have hmn : m = n := by simpa using hf
      have hms : m.reminder_sent = false := by rw [hmn]; exact hs
      have hrw : mark_reminder_sent (m :: rest) i =
          ({ m with reminder_sent := true } :: rest, true) := by
        simp [mark_reminder_sent, hm, hms]
      rw [hrw, hmn]
      exact ⟨rfl, List.find?_cons_of_pos _ (by simp [hmn ▸ hm])⟩
    · rw [List.find?_cons_of_neg _ (by simp [hm])] at hf
      obtain ⟨ih1, ih2⟩ := ih hf
      have hrw : mark_reminder_sent (m :: rest) i =
          (m :: (mark_reminder_sent rest i).1, (mark_reminder_sent rest i).2) := by
        simp [mark_reminder_sent, hm]
      rw [hrw]
      refine ⟨ih1, ?_⟩
      rw [List.find?_cons_of_neg _ (by simp [hm])]
      exact ih2

/-- Marking an id whose first matching row is already delivered changes
nothing and returns `false`. -/
lemma mark_found_sent (db : List DbNote) (i : Nat) (n : DbNote)
    (hf : db.find? (fun r => decide (r.id = i)) = some n)
    (hs : n.reminder_sent = true) :
    mark_reminder_sent db i = (db, false) := by
  induction db with
  | nil => simp at hf
  | cons m rest ih =>
    by_cases hm : m.id = i
    · rw [List.find?_cons_of_pos _ (by simp [hm])] at hf
      have hmn : m = n := by simpa using hf
      have hms : m.reminder_sent = true := by rw [hmn]; exact hs
      simp [mark_reminder_sent, hm, hms]
    · rw [List.find?_cons_of_neg _ (by simp [hm])] at hf
      simp [mark_reminder_sent, hm, ih hf]

/-- Marking an unknown id changes nothing and returns `false`. -/
lemma mark_not_found (db : List DbNote) (i : Nat)
    (hf : db.find? (fun r => decide (r.id = i)) = none) :
    mark_reminder_sent db i = (db, false) := by
  induction db with
  | nil => simp [mark_reminder_sent]
  | cons m rest ih =>
    by_cases hm : m.id = i
    · rw [List.find?_cons_of_pos _ (by simp [hm])] at hf
      simp at hf
    · rw [List.find?_cons_of_neg _ (by simp [hm])] at hf
      simp [mark_reminder_sent, hm, ih hf]

/-- With unique ids, after a successful mark every row carrying the marked
id has the delivered flag set. -/
lemma mark_found_all_sent (db : List DbNote) (i : Nat) (n : DbNote)
    (hf : db.find? (fun r => decide (r.id = i)) = some n)
    (hs : n.reminder_sent = false)
    (hd : (db.map (fun r => r.id)).Nodup) :
    ∀ r ∈ (mark_reminder_sent db i).1, r.id = i → r.reminder_sent = true := by
  induction db with
  | nil => simp at hf
  | cons m rest ih =>
    intro r hr hrid
    rw [List.map_cons, List.nodup_cons] at hd
    by_cases hm : m.id = i
    · rw [List.find?_cons_of_pos _ (by simp [hm])] at hf
      have hmn : m = n := by simpa using hf
      have hms : m.reminder_sent = false := by rw [hmn]; exact hs
      have hrw : mark_reminder_sent (m :: rest) i =
          ({ m with reminder_sent := true } :: rest, true) := by
        simp [mark_reminder_sent, hm, hms]
      rw [hrw] at hr
      rcases List.mem_cons.mp hr with rfl | hr2
      · rfl
      · refine absurd ?_ hd.1
        have : r.id ∈ rest.map (fun r => r.id) := List.mem_map_of_mem (fun r => r.id) hr2
        rwa [hrid, ← hm] at this
    · rw [List.find?_cons_of_neg _ (by simp [hm])] at hf
      have hrw : mark_reminder_sent (m :: rest) i =
          (m :: (mark_reminder_sent rest i).1, (mark_reminder_sent rest i).2) := by
        simp [mark_reminder_sent, hm]
      rw [hrw] at hr
      rcases List.mem_cons.mp hr with rfl | hr2
      · exact absurd hrid hm
      · exact ih hf hd.2 r hr2 hrid

/-! ## Claim C4 -/

/-- C4: in every scheduler tick (both `send_reminders_job` of `src/main.py`
and `send_reminders` of `src/cron_function.py`), a record is passed to
`mark_reminder_sent` exactly when its dispatch succeeded — a record whose
dispatch fails is left unmarked for a later tick — and a send is attempted
for every record of the window regardless of earlier failures, so a single
record's failure does not abort the remaining records of the tick. -/
theorem c4_mark_only_after_dispatch (ok : Nat → Bool) (notes : List DueNote) :
    (send_reminders_job ok notes).marks = ((notes.filter (fun n => ok n.id)).map (fun n => n.id)) ∧
    (send_reminders_job ok notes).sends = notes.map (fun n => n.id) ∧
    (cron_send_reminders ok notes).marks = ((notes.filter (fun n => ok n.id)).map (fun n => n.id)) ∧
    (cron_send_reminders ok notes).sends = notes.map (fun n => n.id) := by
  induction notes with
  | nil => exact ⟨rfl, rfl, rfl, rfl⟩
  | cons n rest ih =>
    obtain ⟨h1, h2, h3, h4⟩ := ih
    by_cases hok : ok n.id <;>
      simp [send_reminders_job, cron_send_reminders, hok, h1, h2, h3, h4, List.filter_cons]

/-! ## Claim C5 -/

/-- C5: `mark_reminder_sent` (spec-modelled, the store module is not under
`src/`) is idempotent: for an existing undelivered record it returns `true`
and sets the delivered flag, a second call returns `false` and changes
nothing, and an unknown id yields `false` with the store untouched; with
unique ids the marked record no longer appears in any subsequent
`get_upcoming_reminders_window` query with `only_unsent = true`, so a
record delivered in one tick is not dispatched again by the next tick even
when both windows contain its due instant. -/
theorem c5_mark_delivered_idempotent :
    (∀ (db : List DbNote) (i : Nat) (n : DbNote),
      db.find? (fun r => decide (r.id = i)) = some n →
      n.reminder_sent = false →
      (mark_reminder_sent db i).2 = true ∧
      mark_reminder_sent (mark_reminder_sent db i).1 i = ((mark_reminder_sent db i).1, false) ∧
      ((db.map (fun r => r.id)).Nodup → ∀ (s e : Int),
        i ∉ (get_upcoming_reminders_window (mark_reminder_sent db i).1 s e true).map
          (fun r => r.id))) ∧
    (∀ (db : List DbNote) (i : Nat),
      db.find? (fun r => decide (r.id = i)) = none →
      mark_reminder_sent db i = (db, false)) := by
  constructor
  · intro db i n hf hs
    obtain ⟨h1, h2⟩ := mark_found db i n hf hs
    refine ⟨h1, mark_found_sent _ i _ h2 rfl, ?_⟩
    intro hd s e hmem
    rw [List.mem_map] at hmem
    obtain ⟨r, hrw, hrid⟩ := hmem
    rw [get_upcoming_reminders_window, List.mem_filter] at hrw
    obtain ⟨hrmem, hcond⟩ := hrw
    have hsent : r.reminder_sent = false := by
      simp only [Bool.and_eq_true, Bool.or_eq_true, Bool.not_eq_eq_eq_not, Bool.not_true] at hcond
      simpa using hcond.2
    have := mark_found_all_sent db i n hf hs hd r hrmem hrid
    rw [this] at hsent
    exact Bool.noConfusion hsent
  · exact mark_not_found

/-- Concrete run of C5: a one-row store with an undelivered record of id 1:
marking id 1 returns `true` then `false` without further change, the row
disappears from the unsent window, and marking the unknown id 2 fails. -/
theorem c5_witness :
    ((mark_reminder_sent [⟨1, 7, "note", "#напоминание", 1000, false⟩] 1).2 = true ∧
      mark_reminder_sent (mark_reminder_sent [⟨1, 7, "note", "#напоминание", 1000, false⟩] 1).1 1 =
        ((mark_reminder_sent [⟨1, 7, "note", "#напоминание", 1000, false⟩] 1).1, false) ∧
      (1 : Nat) ∉ (get_upcoming_reminders_window
        (mark_reminder_sent [⟨1, 7, "note", "#напоминание", 1000, false⟩] 1).1 0 2000 true).map
          (fun r => r.id)) ∧
    mark_reminder_sent [⟨1, 7, "note", "#напоминание", 1000, false⟩] 2 =
      ([⟨1, 7, "note", "#напоминание", 1000, false⟩], false) := by
  have h1 := c5_mark_delivered_idempotent.1 [⟨1, 7, "note", "#напоминание", 1000, false⟩] 1
    ⟨1, 7, "note", "#напоминание", 1000, false⟩ (by decide) (by decide)
  have h2 := c5_mark_delivered_idempotent.2 [⟨1, 7, "note", "#напоминание", 1000, false⟩] 2
    (by decide)
  exact ⟨⟨h1.1, h1.2.1, h1.2.2 (by decide) 0 2000⟩, h2⟩

/-! ## Claim C1 -/

/-- C1 as stated is false: `parse_reminder` returns the input text as the
body unchanged — for `"Buy milk #errands @14:30 05-03-2026"` the returned
body is the whole input, not `"Buy milk"`. -/
theorem c1_counterexample :
    (parse_reminder "Buy milk #errands @14:30 05-03-2026").body =
      "Buy milk #errands @14:30 05-03-2026" ∧
    (parse_reminder "Buy milk #errands @14:30 05-03-2026").body ≠ "Buy milk" := by
  constructor <;> decide

/-- C1 amended: `parse_reminder` never excises the tokens — its body is
always the input text verbatim; the token excision happens only in the
channel handler of `src/main.py`, whose cleanup (`cleanChannelText`:
remove tag tokens, remove the matched datetime token, strip the ends)
yields `"Buy milk"` on the example; `parse_reminder` does return the tags
and the interpreted instant, carried with the Moscow offset, whose
absolute value is unchanged by the conversion to UTC. -/
theorem c1_amended :
    (∀ text : String, (parse_reminder text).body = text) ∧
    List.asString (cleanChannelText "Buy milk #errands @14:30 05-03-2026".toList
      "@14:30 05-03-2026".toList) = "Buy milk" ∧
    (parse_reminder "Buy milk #errands @14:30 05-03-2026").hashtags =
      TagsRet.tagList ["#errands"] ∧
    (parse_reminder "Buy milk #errands @14:30 05-03-2026").reminder_date =
      some (mkAware 2026 3 5 14 30) ∧
    (astimezoneUTC (mkAware 2026 3 5 14 30)).absMin = (mkAware 2026 3 5 14 30).absMin := by
  refine ⟨?_, by decide, by decide, by decide, rfl⟩
  intro text
  simp only [parse_reminder]
  cases searchDT text.toList with
  | none => rfl
  | some m =>
    obtain ⟨f, ts, ds⟩ := m
    cases h : strptimeDMY_HM ds ts <;> simp [h]

/-! ## Claim C2 -/

/-- C2 as stated is false: on `"Meet @25:00 01-01-2026"` the datetime
token matches syntactically, yet `parse_reminder` does not fail — it
catches the `ValueError` and silently returns an absent due instant (with
the hashtags collapsed to a joined string). -/
theorem c2_counterexample :
    (searchDT "Meet @25:00 01-01-2026".toList).isSome = true ∧
    parse_reminder "Meet @25:00 01-01-2026" =
      ⟨"Meet @25:00 01-01-2026", TagsRet.tagStr "", none⟩ := by
  constructor <;> decide

/-- C2 amended: when the datetime token matches but the calendar value is
invalid, `parse_reminder` silently drops the token, returning no due
instant and the joined tags; callers still create no record — the channel
handler of `src/database.py` ignores the post because the due instant is
absent. -/
theorem c2_amended (text : String) (full timeS dateS : List Char)
    (hs : searchDT text.toList = some (full, timeS, dateS))
    (hv : strptimeDMY_HM dateS timeS = none) :
    (parse_reminder text).reminder_date = none ∧
    (parse_reminder text).hashtags =
      TagsRet.tagStr (List.asString (joinSp ((findTags text).map String.toList))) ∧
    ∀ cid : Int, db_handle_channel_post cid text = none := by
  have hp : parse_reminder text =
      ⟨text, TagsRet.tagStr (List.asString (joinSp ((findTags text).map String.toList))), none⟩ := by
    simp only [parse_reminder, hs, hv]
  refine ⟨by rw [hp], by rw [hp], ?_⟩
  intro cid
  simp only [db_handle_channel_post, hp]
  cases containsTagRet (TagsRet.tagStr (List.asString (joinSp ((findTags text).map String.toList)))) <;> simp

/-- Concrete run of the amended C2 on Scenario E's input. -/
theorem c2_witness :
    (parse_reminder "Meet @25:00 01-01-2026").reminder_date = none ∧
    db_handle_channel_post (-1) "Meet @25:00 01-01-2026" = none := by
  have h := c2_amended "Meet @25:00 01-01-2026" "@25:00 01-01-2026".toList
    "25:00".toList "01-01-2026".toList (by decide) (by decide)
  exact ⟨h.1, h.2.2 (-1)⟩

/-! ## Claim C3 -/

/-- C3 as stated is false: on `"Call mom @05-03-2026"` (date-only token)
the parser finds no datetime token at all and yields an absent due
instant, not a default of 09:00 on that date in the display zone. -/
theorem c3_counterexample :
    (parse_reminder "Call mom @05-03-2026").reminder_date = none ∧
    (parse_reminder "Call mom @05-03-2026").reminder_date ≠ some (mkAware 2026 3 5 9 0) := by
  constructor <;> decide

/-- C3 amended: the parser recognizes only the full `@HH:MM DD-MM-YYYY`
grammar; when the search for that token fails — in particular on a
date-only `@DD-MM-YYYY` token — `parse_reminder` returns the text, the
tag list and no due instant (there is no 09:00 default). -/
theorem c3_amended (text : String) (hs : searchDT text.toList = none) :
    parse_reminder text = ⟨text, TagsRet.tagList (findTags text), none⟩ := by
  simp only [parse_reminder, hs]

/-- Concrete run of the amended C3 on Scenario B's date-only input. -/
theorem c3_witness :
    parse_reminder "Call mom @05-03-2026" =
      ⟨"Call mom @05-03-2026", TagsRet.tagList [], none⟩ := by
  have h := c3_amended "Call mom @05-03-2026" (by decide)
  have ht : findTags "Call mom @05-03-2026" = [] := by decide
  rw [ht] at h
  exact h

/-! ## Claim C6 -/

/-- C6 as stated is false: with now = 2026-03-04 12:00 Moscow, the chosen
date 2026-03-05 and the time `09:00` violate the 24-hour minimum lead, and
`input_time_handler` stays in `STATE_INPUT_TIME` (re-prompting for another
time) — it does not return to `STATE_CHOOSE_DATE`. -/
theorem c6_counterexample :
    input_time_step (mkAware 2026 3 4 12 0).absMin (some ⟨2026, 3, 5⟩) "09:00" =
      TimeStep.tooSoon ∧
    input_time_handler (mkAware 2026 3 4 12 0).absMin (some ⟨2026, 3, 5⟩) "09:00" =
      STATE_INPUT_TIME ∧
    STATE_INPUT_TIME ≠ STATE_CHOOSE_DATE := by
  refine ⟨by decide, by decide, by decide⟩

/-- C6 amended: whenever the date/time combination chosen at the time step
yields an event instant less than 24 hours from now, `input_time_handler`
takes the `tooSoon` branch and returns `STATE_INPUT_TIME` — the dialog
stays at the time prompt, so it neither advances towards `STATE_CONFIRM`
nor returns to `STATE_CHOOSE_DATE` for that combination. -/
theorem c6_amended (nowAbs : Int) (d : PyDate) (msgText : String) (h mi : Nat)
    (hm : matchTimeHM (pyStrip msgText.toList) = some (h, mi))
    (hh : h ≤ 23)
    (hlead : (mkAware d.year d.month d.day h mi).absMin < nowAbs + 1440) :
    input_time_step nowAbs (some d) msgText = TimeStep.tooSoon ∧
    input_time_handler nowAbs (some d) msgText = STATE_INPUT_TIME ∧
    STATE_INPUT_TIME ≠ STATE_CHOOSE_DATE ∧
    STATE_INPUT_TIME ≠ STATE_CONFIRM := by
  have hstep : input_time_step nowAbs (some d) msgText = TimeStep.tooSoon := by
    simp only [input_time_step, hm]
    rw [if_neg (by omega)]
    simp [hlead]
  refine ⟨hstep, ?_, by decide, by decide⟩
  rw [input_time_handler, hstep]
  rfl

/-- Concrete run of the amended C6 at the counterexample's inputs. -/
theorem c6_witness :
    input_time_step (mkAware 2026 3 4 12 0).absMin (some ⟨2026, 3, 5⟩) "09:00" =
      TimeStep.tooSoon ∧
    input_time_handler (mkAware 2026 3 4 12 0).absMin (some ⟨2026, 3, 5⟩) "09:00" =
      STATE_INPUT_TIME ∧
    STATE_INPUT_TIME ≠ STATE_CHOOSE_DATE ∧
    STATE_INPUT_TIME ≠ STATE_CONFIRM :=
  c6_amended (mkAware 2026 3 4 12 0).absMin ⟨2026, 3, 5⟩ "09:00" 9 0
    (by decide) (by decide) (by decide)

/-! ## Claim C7 -/

/-- The event instant encoded by the datetime token of a channel text:
the `strptime` interpretation of the matched token in the Moscow zone, as
an absolute instant. -/
def eventAbsChannel (l : List Char) : Option Int :=
  match searchDT l with
  | none => none
  | some (_, timeS, dateS) =>
    (strptimeDMY_HM dateS timeS).map (fun t => (replaceTZ t MSK_OFFSET).absMin)

/-- C7: on both creation paths the stored due instant is the user-chosen
event instant minus the 24-hour notify-lead offset, normalized to UTC
(offset 0), and never the event instant itself: every note saved by the
channel handler has `dueAt = event - 1440` minutes for the event instant
encoded by the text's token, and every note saved by the dialog's
`CONFIRM_SAVE` has `dueAt = event - 1440` for the session's chosen
date/hour/minute. -/
theorem c7_notify_lead_offset :
    (∀ (nowAbs chatId : Int) (rawText : String) (note : SavedNote),
      handle_channel_post nowAbs chatId rawText = ChannelOutcome.saved note →
      note.reminder_date.offsetMin = 0 ∧
      eventAbsChannel (pyStrip rawText.toList) = some (note.reminder_date.absMin + 1440) ∧
      eventAbsChannel (pyStrip rawText.toList) ≠ some note.reminder_date.absMin) ∧
    (∀ (d : PyDate) (h mi : Nat) (draft : String) (cid : Int) (note : SavedNote),
      callback_confirm_save "CONFIRM_SAVE" (some d) (some h) (some mi) draft (some cid) =
        ConfirmOutcome.saved note →
      note.reminder_date.absMin = (mkAware d.year d.month d.day h mi).absMin - 1440 ∧
      note.reminder_date.offsetMin = 0 ∧
      note.reminder_date.absMin ≠ (mkAware d.year d.month d.day h mi).absMin) := by
  constructor
  · intro nowAbs chatId rawText note hsave
    simp only [handle_channel_post] at hsave
    split at hsave
    · simp at hsave
    · split at hsave
      · simp at hsave
      · rename_i full timeS dateS heq
        split at hsave
        · split at hsave
          · simp at hsave
          · rename_i t hv
            split at hsave
            · simp at hsave
            · rw [ChannelOutcome.saved.injEq] at hsave
              obtain rfl := hsave
              have heq2 : searchDT (pyStrip rawText.data) = some (full, timeS, dateS) := heq
              refine ⟨rfl, ?_, ?_⟩
              · simp [eventAbsChannel, heq2, hv, astimezoneUTC, subDays]
              · simp [eventAbsChannel, heq2, hv, astimezoneUTC, subDays]
                omega
        · simp at hsave
  · intro d h mi draft cid note hsave
    simp only [callback_confirm_save, reduceIte] at hsave
    split at hsave
    · simp at hsave
    · split at hsave
      · simp at hsave
      · rw [ConfirmOutcome.saved.injEq] at hsave
        obtain rfl := hsave
        refine ⟨?_, rfl, ?_⟩
        · simp [astimezoneUTC, subDays]
        · simp [astimezoneUTC, subDays]

/-- Concrete run of C7 on both paths: a channel post whose event is
2026-03-05 14:30 Moscow, and a dialog save whose event is 2026-03-10
14:00 Moscow; both stored due instants sit exactly 1440 minutes before
the event, at offset 0. -/
theorem c7_witness :
    ((⟨(-100 : Int), "Pay rent (событие: 14:30 05-03-2026)", "#напоминание",
        ⟨1065137010, 0⟩⟩ : SavedNote).reminder_date.offsetMin = 0 ∧
      eventAbsChannel (pyStrip "Pay rent #напоминание @14:30 05-03-2026".toList) =
        some ((1065137010 : Int) + 1440) ∧
      eventAbsChannel (pyStrip "Pay rent #напоминание @14:30 05-03-2026".toList) ≠
        some (1065137010 : Int)) ∧
    ((⟨(-100123 : Int), "Оплата счёта (событие: 14:00 10-03-2026)", "#напоминание",
        ⟨1065144180, 0⟩⟩ : SavedNote).reminder_date.absMin =
      (mkAware 2026 3 10 14 0).absMin - 1440 ∧
      (⟨(-100123 : Int), "Оплата счёта (событие: 14:00 10-03-2026)", "#напоминание",
        ⟨1065144180, 0⟩⟩ : SavedNote).reminder_date.offsetMin = 0 ∧
      (⟨(-100123 : Int), "Оплата счёта (событие: 14:00 10-03-2026)", "#напоминание",
        ⟨1065144180, 0⟩⟩ : SavedNote).reminder_date.absMin ≠
        (mkAware 2026 3 10 14 0).absMin) := by
  constructor
  · exact c7_notify_lead_offset.1 (mkAware 2026 3 4 12 0).absMin (-100)
      "Pay rent #напоминание @14:30 05-03-2026" _ (by decide)
  · exact c7_notify_lead_offset.2 ⟨2026, 3, 10⟩ 14 0 "Оплата счёта" (-100123) _ (by decide)

/-! ## Claim C9 -/

/-- C9: a channel post is saved as a reminder only when the recognized
category tag `#напоминание` occurs among its hashtag tokens: in
`src/main.py` a post without the tag never reaches the saved outcome
(whatever the current time or channel), and in `src/database.py` the
handler stores nothing for such a post. -/
theorem c9_channel_requires_tag :
    (∀ (nowAbs chatId : Int) (rawText : String) (note : SavedNote),
      "#напоминание" ∉ findTagsIn (pyStrip rawText.toList) →
      handle_channel_post nowAbs chatId rawText ≠ ChannelOutcome.saved note) ∧
    (∀ (channelId : Int) (text : String),
      "#напоминание" ∉ findTags text →
      db_handle_channel_post channelId text = none) := by
  constructor
  · intro nowAbs chatId rawText note hmem hsave
    simp only [handle_channel_post] at hsave
    split at hsave
    · simp at hsave
    · split at hsave
      · simp at hsave
      · simp at hsave
  · intro channelId text hmem
    simp only [db_handle_channel_post]
    cases hs : searchDT text.toList with
    | none =>
      have hp : parse_reminder text = ⟨text, TagsRet.tagList (findTags text), none⟩ := by
        simp only [parse_reminder, hs]
      rw [hp]
      simp [containsTagRet, hmem]
    | some m =>
      obtain ⟨full, timeS, dateS⟩ := m
      cases hv : strptimeDMY_HM dateS timeS with
      | none =>
        have hp : parse_reminder text =
            ⟨text, TagsRet.tagStr (List.asString (joinSp ((findTags text).map String.toList))),
              none⟩ := by
          simp only [parse_reminder, hs, hv]
        rw [hp]
        cases containsTagRet (TagsRet.tagStr
          (List.asString (joinSp ((findTags text).map String.toList)))) <;> simp
      | some t =>
        have hp : parse_reminder text =
            ⟨text, TagsRet.tagList (findTags text), some (replaceTZ t MSK_OFFSET)⟩ := by
          simp only [parse_reminder, hs, hv]
        rw [hp]
        simp [containsTagRet, hmem]

/-- Concrete run of C9: a channel post with a date token and another tag
but no `#напоминание` is not saved by either handler. -/
theorem c9_witness :
    handle_channel_post 0 (-1) "hello @14:30 05-03-2026 #misc" ≠
      ChannelOutcome.saved ⟨0, "", "", ⟨0, 0⟩⟩ ∧
    db_handle_channel_post (-1) "hello @14:30 05-03-2026 #misc" = none :=
  ⟨c9_channel_requires_tag.1 0 (-1) "hello @14:30 05-03-2026 #misc" ⟨0, "", "", ⟨0, 0⟩⟩
      (by decide),
    c9_channel_requires_tag.2 (-1) "hello @14:30 05-03-2026 #misc" (by decide)⟩

/-! ## Claim C8 -/

/-- Inside a candidate tag, a word character is appended to the accumulator. -/
lemma scanT_cons_word (c : Char) (l acc : List Char) (hc : isWordChar c = true) :
    scanT (c :: l) true acc = scanT l true (c :: acc) := by
  simp [scanT, hc]

/-- A `#` outside a tag starts a fresh candidate tag. -/
lemma scanT_cons_hash (l acc : List Char) : scanT ('#' :: l) false acc = scanT l true [] := by
  simp [scanT]

/-- A non-word, non-`#` character after a nonempty candidate emits the tag. -/
lemma scanT_emit (c : Char) (l acc : List Char) (hc : isWordChar c = false)
    (hch : (c == '#') = false) (hacc : acc ≠ []) :
    scanT (c :: l) true acc = ('#' :: acc.reverse) :: scanT l false [] := by
  have hae : acc.isEmpty = false := by simpa using hacc
  simp [scanT, hc, hch, hae]

/-- End of input after a nonempty candidate emits the tag. -/
lemma scanT_nil_emit (acc : List Char) (hacc : acc ≠ []) :
    scanT [] true acc = ['#' :: acc.reverse] := by
  have hae : acc.isEmpty = false := by simpa using hacc
  simp [scanT, hae]

/-- A run of word characters is consumed into the accumulator. -/
lemma scanT_word_run (w : List Char) (hw : w.all isWordChar = true) :
    ∀ (rest acc : List Char), scanT (w ++ rest) true acc = scanT rest true (w.reverse ++ acc) := by
  induction w with
  | nil => intro rest acc; simp
  | cons c cs ih =>
    intro rest acc
    rw [List.all_cons, Bool.and_eq_true] at hw
    rw [List.cons_append, scanT_cons_word c _ _ hw.1, ih hw.2 rest (c :: acc)]
    simp

/-- The scanner finds a doubled tag token twice, verbatim. -/
lemma scanT_tag_twice (w : List Char) (hne : w ≠ []) (hw : w.all isWordChar = true) :
    scanT ('#' :: (w ++ ' ' :: '#' :: w)) false [] = ['#' :: w, '#' :: w] := by
  have hrev : w.reverse ≠ [] := fun h => hne (by simpa using h)
  have hlast : scanT w true [] = ['#' :: w] := by
    have hrun := scanT_word_run w hw [] []
    simp only [List.append_nil] at hrun
    rw [hrun, scanT_nil_emit _ hrev, List.reverse_reverse]
  rw [scanT_cons_hash, scanT_word_run w hw (' ' :: '#' :: w) [], List.append_nil,
    scanT_emit ' ' ('#' :: w) w.reverse (by decide) (by decide) hrev,
    List.reverse_reverse, scanT_cons_hash, hlast]

/-- C8 as stated is false: on `"#Tag #tag #tag"` the tags handed over are
neither lower-cased nor de-duplicated — `parse_hashtags` returns all three
tokens verbatim, and `parse_reminder` returns the three-element list. -/
theorem c8_counterexample :
    parse_hashtags "#Tag #tag #tag" = "#Tag #tag #tag" ∧
    findTags "#Tag #tag #tag" = ["#Tag", "#tag", "#tag"] ∧
    (parse_reminder "#Tag #tag #tag").hashtags = TagsRet.tagList ["#Tag", "#tag", "#tag"] ∧
    ("#Tag" : String) ≠ "#tag" ∧ (["#Tag", "#tag", "#tag"] : List String).length ≠ 1 := by
  refine ⟨by decide, by decide, by decide, by decide, by decide⟩

/-- C8 amended: the extracted tags keep their original case and their
duplicates: for every word `w`, the text `#w #w` yields the token `#w`
twice, and `parse_hashtags` joins both verbatim occurrences. -/
theorem c8_amended (w : List Char) (hne : w ≠ []) (hw : w.all isWordChar = true) :
    findTags (List.asString ('#' :: (w ++ ' ' :: '#' :: w))) =
      [List.asString ('#' :: w), List.asString ('#' :: w)] ∧
    parse_hashtags (List.asString ('#' :: (w ++ ' ' :: '#' :: w))) =
      List.asString (('#' :: w) ++ ' ' :: '#' :: w) := by
  have hf : findTags (List.asString ('#' :: (w ++ ' ' :: '#' :: w))) =
      [List.asString ('#' :: w), List.asString ('#' :: w)] := by
    show (scanT ('#' :: (w ++ ' ' :: '#' :: w)) false []).map List.asString = _
    rw [scanT_tag_twice w hne hw]
    rfl
  refine ⟨hf, ?_⟩
  show List.asString (joinSp ((findTags (List.asString ('#' :: (w ++ ' ' :: '#' :: w)))).map
    String.toList)) = _
  rw [hf]
  rfl

/-- Concrete run of the amended C8 with the repeated tag `#tag`. -/
theorem c8_witness :
    findTags (List.asString ('#' :: ("tag".toList ++ ' ' :: '#' :: "tag".toList))) =
      [List.asString ('#' :: "tag".toList), List.asString ('#' :: "tag".toList)] ∧
    parse_hashtags (List.asString ('#' :: ("tag".toList ++ ' ' :: '#' :: "tag".toList))) =
      List.asString (('#' :: "tag".toList) ++ ' ' :: '#' :: "tag".toList) :=
  c8_amended "tag".toList (by decide) (by decide)

/-! ## Claim C10 -/

/-- The note saved by a `ConfirmOutcome`, when one was saved. -/
def outcomeNote : ConfirmOutcome → Option SavedNote
  | .saved n => some n
  | _ => none

/-- `String.toList` distributes over string concatenation. -/
lemma toList_append (a b : String) : (a ++ b).toList = a.toList ++ b.toList := by
  cases a; cases b; rfl

/-- A run of non-whitespace characters is consumed into the split
accumulator. -/
lemma splitWSAux_word_run (w : List Char) (hw : ∀ c ∈ w, isWS c = false) :
    ∀ (rest acc : List Char), splitWSAux (w ++ rest) acc = splitWSAux rest (w.reverse ++ acc) := by
  induction w with
  | nil => intro rest acc; simp
  | cons c cs ih =>
    intro rest acc
    have hc : isWS c = false := hw c (List.mem_cons_self c cs)
    rw [List.cons_append,
      show splitWSAux (c :: (cs ++ rest)) acc = splitWSAux (cs ++ rest) (c :: acc) by
        simp [splitWSAux, hc],
      ih (fun x hx => hw x (List.mem_cons_of_mem c hx)) rest (c :: acc)]
    simp

/-- The token after the last space of `l ++ " w"` is one of the words of
the split, for a nonempty whitespace-free `w`. -/
lemma splitWSAux_mem_last (w : List Char) (hne : w ≠ []) (hw : ∀ c ∈ w, isWS c = false) :
    ∀ (l acc : List Char), w ∈ splitWSAux (l ++ ' ' :: w) acc := by
  have hrev : w.reverse ≠ [] := fun h => hne (by simpa using h)
  have hrevE : w.reverse.isEmpty = false := by simpa using hrev
  have hrun : splitWSAux w [] = [w] := by
    have h1 := splitWSAux_word_run w hw [] []
    simp only [List.append_nil] at h1
    rw [h1]
    simp [splitWSAux, hrevE]
  intro l
  induction l with
  | nil =>
    intro acc
    rw [List.nil_append]
    cases hacc : acc.isEmpty
    · rw [show splitWSAux (' ' :: w) acc = acc.reverse :: splitWSAux w [] by
        simp [splitWSAux, hacc, show isWS ' ' = true from rfl]]
      rw [hrun]
      exact List.mem_cons_of_mem _ (by simp)
    · rw [show splitWSAux (' ' :: w) acc = splitWSAux w [] by
        simp [splitWSAux, hacc, show isWS ' ' = true from rfl]]
      rw [hrun]
      simp
  | cons c cs ih =>
    intro acc
    rw [List.cons_append]
    cases hc : isWS c
    · rw [show splitWSAux (c :: (cs ++ ' ' :: w)) acc = splitWSAux (cs ++ ' ' :: w) (c :: acc) by
        simp [splitWSAux, hc]]
      exact ih (c :: acc)
    · cases hacc : acc.isEmpty
      · rw [show splitWSAux (c :: (cs ++ ' ' :: w)) acc =
            acc.reverse :: splitWSAux (cs ++ ' ' :: w) [] by simp [splitWSAux, hc, hacc]]
        exact List.mem_cons_of_mem _ (ih [])
      · rw [show splitWSAux (c :: (cs ++ ' ' :: w)) acc = splitWSAux (cs ++ ' ' :: w) [] by
          simp [splitWSAux, hc, hacc]]
        exact ih []

/-- Dropping leading whitespace either stops within `l` or consumes all of
`l` together with the separating space. -/
lemma dropWhile_ws_append_or (w : List Char) (l : List Char) :
    List.dropWhile isWS (l ++ ' ' :: w) = (List.dropWhile isWS l) ++ ' ' :: w ∨
    List.dropWhile isWS (l ++ ' ' :: w) = List.dropWhile isWS w := by
  induction l with
  | nil =>
    right
    rw [List.nil_append, List.dropWhile_cons]
    simp [show isWS ' ' = true from rfl]
  | cons c cs ih =>
    rw [List.cons_append, List.dropWhile_cons, List.dropWhile_cons]
    cases hc : isWS c
    · left
      simp [List.cons_append]
    · simpa using ih

/-- A reversed whitespace-free nonempty token resists `dropWhile`. -/
lemma dropWhile_rev_token (w : List Char) (hne : w ≠ []) (hw : ∀ c ∈ w, isWS c = false)
    (r : List Char) : List.dropWhile isWS (w.reverse ++ r) = w.reverse ++ r := by
  obtain ⟨a, as, ha⟩ :=
    List.exists_cons_of_ne_nil (show w.reverse ≠ [] from fun h => hne (by simpa using h))
  have hmem : a ∈ w := by
    rw [← List.mem_reverse, ha]
    exact List.mem_cons_self a as
  rw [ha, List.cons_append, List.dropWhile_cons, hw a hmem]
  simp

/-- After appending `" #напоминание"` and stripping, the tag is one of the
whitespace-split words. -/
lemma tag_mem_split_strip (l : List Char) :
    "#напоминание".toList ∈ splitWSAux (pyStrip (l ++ ' ' :: "#напоминание".toList)) [] := by
  have hne : "#напоминание".toList ≠ [] := by decide
  have hw : ∀ c ∈ "#напоминание".toList, isWS c = false := by decide
  rcases dropWhile_ws_append_or "#напоминание".toList l with h | h
  · have key : pyStrip (l ++ ' ' :: "#напоминание".toList) =
        (List.dropWhile isWS l) ++ ' ' :: "#напоминание".toList := by
      rw [pyStrip, h]
      have h2 : ((List.dropWhile isWS l) ++ ' ' :: "#напоминание".toList).reverse =
          "#напоминание".toList.reverse ++ ' ' :: (List.dropWhile isWS l).reverse := by
        rw [List.reverse_append, List.reverse_cons, List.append_assoc, List.singleton_append]
      rw [h2, dropWhile_rev_token _ hne hw, ← h2, List.reverse_reverse]
    rw [key]
    exact splitWSAux_mem_last _ hne hw (List.dropWhile isWS l) []
  · rw [pyStrip, h]
    decide

/-- Whatever tags the draft carries, the completed hashtag string of
`callback_confirm_save` contains the token `#напоминание`. -/
lemma tag_mem_confirm_hashtags (t : String) :
    "#напоминание" ∈ pySplit (confirm_hashtags t) := by
  simp only [confirm_hashtags]
  by_cases h1 : "#напоминание" ∈ pySplit (parse_hashtags t)
  · rw [if_pos h1]
    exact h1
  · rw [if_neg h1]
    by_cases h2 : parse_hashtags t ≠ ""
    · rw [if_pos h2]
      have hm := tag_mem_split_strip (parse_hashtags t).toList
      have hmap := List.mem_map_of_mem List.asString hm
      show "#напоминание" ∈
        (splitWSAux (pyStrip ((parse_hashtags t ++ " #напоминание").toList)) []).map
          List.asString
      rw [toList_append]
      exact hmap
    · rw [if_neg h2]
      decide

/-- C10 as stated is false: a draft already containing `#напоминание`
twice keeps both occurrences — the saved record's hashtag string splits
into a list in which the tag is counted twice, not once. -/
theorem c10_counterexample :
    (outcomeNote (callback_confirm_save "CONFIRM_SAVE" (some ⟨2026, 3, 10⟩) (some 14) (some 0)
        "Оплата #напоминание #напоминание" (some (-100123)))).map
      (fun n => (pySplit n.hashtags).count "#напоминание") = some 2 ∧ (2 : Nat) ≠ 1 := by
  constructor <;> decide

/-- C10 amended: every record saved through `CONFIRM_SAVE` carries
`#напоминание` among its split hashtags; when the stripped draft's tags
already contain the token the tag string is the draft's tags unchanged
(occurrences kept as they are, not de-duplicated), and when they do not,
`#напоминание` is appended once after them (or used alone when the draft
has no tags at all, the `parse_hashtags = ""` case of `confirm_hashtags`). -/
theorem c10_amended (d : PyDate) (h mi : Nat) (draft : String) (cid : Int) (note : SavedNote)
    (hs : callback_confirm_save "CONFIRM_SAVE" (some d) (some h) (some mi) draft (some cid) =
      ConfirmOutcome.saved note) :
    note.hashtags = confirm_hashtags (List.asString (pyStrip draft.toList)) ∧
    "#напоминание" ∈ pySplit note.hashtags ∧
    ("#напоминание" ∈ pySplit (parse_hashtags (List.asString (pyStrip draft.toList))) →
      note.hashtags = parse_hashtags (List.asString (pyStrip draft.toList))) ∧
    ("#напоминание" ∉ pySplit (parse_hashtags (List.asString (pyStrip draft.toList))) →
      parse_hashtags (List.asString (pyStrip draft.toList)) ≠ "" →
      note.hashtags = List.asString (pyStrip
        (parse_hashtags (List.asString (pyStrip draft.toList)) ++ " #напоминание").toList)) := by
  simp only [callback_confirm_save, reduceIte] at hs
  split at hs
  · simp at hs
  · split at hs
    · simp at hs
    · rw [ConfirmOutcome.saved.injEq] at hs
      obtain rfl := hs
      refine ⟨rfl, tag_mem_confirm_hashtags _, ?_, ?_⟩
      · intro h1
        show confirm_hashtags _ = _
        simp only [confirm_hashtags]
        rw [if_pos h1]
      · intro h1 h2
        show confirm_hashtags _ = _
        simp only [confirm_hashtags]
        rw [if_neg h1, if_pos h2]

/-- Concrete run of the amended C10: a draft with the tag `#дом` but
without `#напоминание` is saved with `#напоминание` appended after the
draft's tags. -/
theorem c10_witness :
    (⟨(-100123 : Int), "Сдать отчёт #дом (событие: 14:00 10-03-2026)", "#дом #напоминание",
        ⟨1065144180, 0⟩⟩ : SavedNote).hashtags =
      confirm_hashtags (List.asString (pyStrip "Сдать отчёт #дом".toList)) ∧
    "#напоминание" ∈ pySplit (⟨(-100123 : Int), "Сдать отчёт #дом (событие: 14:00 10-03-2026)",
      "#дом #напоминание", ⟨1065144180, 0⟩⟩ : SavedNote).hashtags ∧
    (⟨(-100123 : Int), "Сдать отчёт #дом (событие: 14:00 10-03-2026)", "#дом #напоминание",
        ⟨1065144180, 0⟩⟩ : SavedNote).hashtags =
      List.asString (pyStrip
        (parse_hashtags (List.asString (pyStrip "Сдать отчёт #дом".toList)) ++
          " #напоминание").toList) := by
  have h := c10_amended ⟨2026, 3, 10⟩ 14 0 "Сдать отчёт #дом" (-100123)
    ⟨-100123, "Сдать отчёт #дом (событие: 14:00 10-03-2026)", "#дом #напоминание",
      ⟨1065144180, 0⟩⟩ (by decide)
  exact ⟨h.1, h.2.1, h.2.2.2 (by decide) (by decide)⟩
